import Mathlib

/-!
Shallow embedding of the movie-recommendation backend (FastAPI + MongoDB +
Redis) and proofs about its recommendation subsystem.

Source files embedded here:
- routers/recommendations.py : user-based and item-based recommendation flows
- routers/movies.py          : movie detail endpoint
- routers/interactions.py    : interaction creation endpoint
- models/movie.py, models/interaction.py : the pydantic schemas

Modelling conventions:
- a MongoDB collection is a list of documents in natural (insertion) order;
  `find` returns the matching documents in that order, `find_one` the first;
- the `$sample` aggregation stage draws documents in a random order; that
  order enters the embedding as an explicit `shuffle` parameter, constrained
  in theorems to be a permutation of the matched documents;
- Redis (opened with decode_responses=True) is an association list of
  string keys to string values, newest binding first;
- Python floats are idealised as exact arithmetic: vector components are
  rationals and cosine-similarity scores live in the reals;
- a Python `raise HTTPException` / uncaught exception is an `Except.error`
  carrying the HTTP status and detail string the handler would produce.
-/

namespace MovieRec

/-- A movie document of the `movies` collection: `movieId_ml`, `title`,
`genres`, and an optional precomputed `embedding` vector (absence of the
field is a valid state, meaning "not yet embedded"). -/
structure Movie where
  movieId_ml : String
  title : String
  genres : String
  embedding : Option (List ℚ)
deriving DecidableEq

/-- The response shape of models/movie.py `MovieResponse`, as produced by the
projection that strips the `embedding` field (the Mongo `_id` is not
modelled). -/
structure MovieResponse where
  movieId_ml : String
  title : String
  genres : String
deriving DecidableEq

/-- Dropping the embedding field from a movie document, as the projection
`{"embedding": 0}` does before `MovieResponse(**movie)` is built. -/
def stripEmbedding (m : Movie) : MovieResponse :=
  ⟨m.movieId_ml, m.title, m.genres⟩

/-- The request body schema of models/interaction.py `InteractionCreate`: it
carries only `movieId_ml`, `type` and `value`. -/
structure InteractionCreate where
  movieId_ml : String
  type : String
  value : Int
deriving DecidableEq

/-- A stored interaction document, as assembled by routers/interactions.py:
the body fields plus the server-set `userId` and `timestamp`. -/
structure Interaction where
  userId : String
  movieId_ml : String
  type : String
  value : Int
  timestamp : Nat
deriving DecidableEq

/-- An HTTP error response: status code and detail string, as raised through
`HTTPException(status_code=..., detail=...)`. -/
structure HTTPError where
  status : Nat
  detail : String
deriving DecidableEq

deriving instance DecidableEq for Except

/-- The Redis store: keys to string values, newest binding first. -/
abbrev Cache := List (String × String)

/-- Models redis `get(key)`: the value stored under the key, if any. -/
def redisGet (c : Cache) (k : String) : Option String :=
  (c.find? (fun p => decide (p.1 = k))).map (fun p => p.2)

/-- Models redis `set(key, value, ex=3600)`: unconditional overwrite (the
TTL matters only through backend-side expiry, which is not modelled). -/
def redisSet (c : Cache) (k v : String) : Cache :=
  (k, v) :: c.filter (fun p => decide (p.1 ≠ k))

/-- The user-based cache key `recommendations:<userId>` built in
routers/recommendations.py. -/
def userKey (userId : String) : String :=
  "recommendations:" ++ userId

/-- The item-based cache key `item_recommendations:<movieId>` built in
routers/recommendations.py. -/
def itemKey (movieId : String) : String :=
  "item_recommendations:" ++ movieId

/-- Python `",".join(parts)` at the character level: the parts concatenated
with a comma between consecutive parts. -/
def joinCommaChars : List (List Char) → List Char
  | [] => []
  | [w] => w
  | w :: ws => w ++ ',' :: joinCommaChars ws

/-- Python `s.split(",")` at the character level: maximal comma-free runs;
the empty text splits to one empty part, and every comma opens a new part. -/
def splitCommaChars : List Char → List (List Char)
  | [] => [[]]
  | c :: cs =>
    if c = ',' then [] :: splitCommaChars cs
    else
      match splitCommaChars cs with
      | [] => [[c]]
      | w :: ws => (c :: w) :: ws

/-- Python `",".join(ids)` on strings. -/
def pyJoinComma (ids : List String) : String :=
  String.mk (joinCommaChars (ids.map String.data))

/-- Python `cached.split(",")` on strings. -/
def pySplitComma (s : String) : List String :=
  (splitCommaChars s.data).map String.mk

/-- The read side of the cache as both recommendation handlers use it:
`redis_client.get(key)` followed by the Python truthiness test
`if cached_recommendations:` (so a stored empty string behaves as a miss)
and then `cached_recommendations.split(",")`. -/
def cachedIds (c : Cache) (k : String) : Option (List String) :=
  match redisGet c k with
  | none => none
  | some s => if s = "" then none else some (pySplitComma s)

/-- The write side of the cache: `redis_client.set(key, ",".join(ids),
ex=3600)`. -/
def cachePutIds (c : Cache) (k : String) (ids : List String) : Cache :=
  redisSet c k (pyJoinComma ids)

/-- Models `movies_collection.find({"movieId_ml": {"$in": ids}},
{"embedding": 0})`: every movie document whose id is in `ids`, in the
collection's natural order (Mongo `$in` does not reorder by the query
list), with the embedding stripped. -/
def findIn (store : List Movie) (ids : List String) : List MovieResponse :=
  (store.filter (fun m => decide (m.movieId_ml ∈ ids))).map stripEmbedding

/-- The movie ids a user has interacted with, from
`interactions_collection.find({"userId": user_id})` (the full history, no
time bound; the Python set only matters through membership). -/
def seenIds (interactions : List Interaction) (userId : String) : List String :=
  (interactions.filter (fun i => decide (i.userId = userId))).map
    (fun i => i.movieId_ml)

/-- The try-block of routers/movies.py `get_movie`: resolve the first movie
matching the id, else raise `HTTPException(404, "Movie not found")`. -/
def get_movie_body (store : List Movie) (movie_id : String) :
    Except HTTPError MovieResponse :=
  match store.find? (fun m => decide (m.movieId_ml = movie_id)) with
  | some m => Except.ok (stripEmbedding m)
  | none => Except.error ⟨404, "Movie not found"⟩

/-- routers/movies.py `get_movie` as a whole. Its `except Exception` clause
has no preceding `except HTTPException` re-raise, and FastAPI's
`HTTPException` is a subclass of `Exception`, so the 404 raised inside the
try-block is caught and replaced by a 500. -/
def get_movie (store : List Movie) (movie_id : String) :
    Except HTTPError MovieResponse :=
  match get_movie_body store movie_id with
  | Except.ok r => Except.ok r
  | Except.error _ => Except.error ⟨500, "Error retrieving movie"⟩

/-- routers/interactions.py `create_interaction`: the body's fields are
dumped, then `userId` is overwritten with the token's `sub` claim and
`timestamp` with the server clock, and the document is inserted; the
response is the document just inserted (re-read by `_id`). Returns the
updated collection and the response document. -/
def create_interaction (istore : List Interaction) (body : InteractionCreate)
    (tokenSub : String) (now : Nat) : List Interaction × Interaction :=
  let doc : Interaction :=
    { userId := tokenSub
      movieId_ml := body.movieId_ml
      type := body.type
      value := body.value
      timestamp := now }
  (istore ++ [doc], doc)

/-- Componentwise dot product of two vectors, zero-extended past the shorter
one (inside the flow both vectors always have the same length). -/
def dotQ : List ℚ → List ℚ → ℚ
  | [], _ => 0
  | _, [] => 0
  | a :: as, b :: bs => a * b + dotQ as bs

/-- The squared Euclidean norm of a vector. -/
def sumSq (v : List ℚ) : ℚ :=
  dotQ v v

/-- sklearn's `normalize` (used inside `cosine_similarity`) divides each row
by its norm but first replaces a zero norm by 1; `safeSumSq` is the square
of that effective norm. -/
def safeSumSq (v : List ℚ) : ℚ :=
  if sumSq v = 0 then 1 else sumSq v

/-- sklearn `cosine_similarity` of a query row and a candidate row:
dot(q, c) divided by the product of the effective norms (a zero norm is
replaced by 1, so an all-zero vector scores 0 instead of faulting). -/
noncomputable def cosineSim (q c : List ℚ) : ℝ :=
  ((dotQ q c : ℚ) : ℝ) /
    (Real.sqrt ((safeSumSq q : ℚ) : ℝ) * Real.sqrt ((safeSumSq c : ℚ) : ℝ))

/-- An exact finite representation of a candidate's score against a fixed
query: the numerator `dot(q, c)` and the positive square `safeSumSq q *
safeSumSq c` of the denominator, so that the score is `d / sqrt p`. -/
def simKey (q c : List ℚ) : ℚ × ℚ :=
  (dotQ q c, safeSumSq q * safeSumSq c)

/-- Decides `d₁ / sqrt p₁ ≤ d₂ / sqrt p₂` for positive `p₁ p₂` by sign
analysis and cross-multiplied squares; this is the comparison the float
sort performs, carried out exactly. -/
def scoreLE (a b : ℚ × ℚ) : Bool :=
  if a.1 < 0 then
    if b.1 < 0 then decide (b.1 * b.1 * a.2 ≤ a.1 * a.1 * b.2) else true
  else
    if b.1 < 0 then false else decide (a.1 * a.1 * b.2 ≤ b.1 * b.1 * a.2)

/-- The order in which `sorted(zip(candidate_movies, similarities),
key=lambda x: x[1], reverse=True)` keeps `a` no later than `b`: the score of
`b` does not exceed the score of `a`. -/
def rankRel (qEmb : List ℚ) (a b : Movie × List ℚ) : Prop :=
  scoreLE (simKey qEmb b.2) (simKey qEmb a.2) = true

instance rankRelDecidable (qEmb : List ℚ) : DecidableRel (rankRel qEmb) :=
  fun a b => decidable_of_iff (scoreLE (simKey qEmb b.2) (simKey qEmb a.2) = true) Iff.rfl

/-- Steps 4-5 of the item-based flow: score every candidate against the
query embedding and sort descending. Python's `sorted` is a stable sort, so
any stable sort gives its exact output; insertion on `rankRel` places an
earlier-input element before every later element it does not strictly lose
to, which is that stable descending order. -/
def rankStep (qEmb : List ℚ) (cands : List (Movie × List ℚ)) :
    List (Movie × List ℚ) :=
  List.insertionSort (rankRel qEmb) cands

/-- The `$match` stage of the candidate aggregation:
`{"movieId_ml": {"$ne": movie_id_ml}}` over the collection. -/
def matchExcludeTarget (store : List Movie) (target : String) : List Movie :=
  store.filter (fun m => decide (m.movieId_ml ≠ target))

/-- The `$sample: {"size": 500}` stage: `shuffle` is the random order in
which the stage draws the matched documents (theorems constrain it to be a
permutation of the `$match` output), and at most 500 are taken. -/
def sampleCandidates (shuffle : List Movie) : List Movie :=
  shuffle.take 500

/-- The comprehension `[movie["embedding"] for movie in candidate_movies]`:
pairs each sampled movie with its embedding, or fails (Python `KeyError`,
mapped to a 500 by the handler) when a sampled document has no embedding
field. -/
def extractEmbeddings : List Movie → Option (List (Movie × List ℚ))
  | [] => some []
  | m :: ms =>
    match m.embedding, extractEmbeddings ms with
    | some e, some rest => some ((m, e) :: rest)
    | _, _ => none

/-- Steps 5-7 of the item-based flow after ranking: drop candidates the
requesting user has already interacted with, take the top 10, and keep
their ids (in ranked order, as cached). -/
def computeRecIds (qEmb : List ℚ) (candsE : List (Movie × List ℚ))
    (seen : List String) : List String :=
  (((rankStep qEmb candsE).filter
      (fun p => decide (p.1.movieId_ml ∉ seen))).take 10).map
    (fun p => p.1.movieId_ml)

/-- The uncached path of routers/recommendations.py
`get_item_recommendations` (steps 2-9): resolve the target embedding (404
if the movie or its embedding is absent), sample candidates, extract their
embeddings (a missing embedding is a KeyError, hence a 500), fault with a
500 where numpy/sklearn would reject the array shapes (empty query row,
empty candidate matrix, or a candidate row whose length differs from the
query's), then rank, filter seen, truncate to 10, fetch the details of the
resulting ids and cache them under the item key. -/
def itemUncached (store : List Movie) (interactions : List Interaction)
    (cache : Cache) (userId target : String) (shuffle : List Movie) :
    Except HTTPError (List MovieResponse × Cache) :=
  match store.find? (fun m => decide (m.movieId_ml = target)) with
  | none => Except.error ⟨404, "Movie embedding not found."⟩
  | some tm =>
    match tm.embedding with
    | none => Except.error ⟨404, "Movie embedding not found."⟩
    | some qEmb =>
      match extractEmbeddings (sampleCandidates shuffle) with
      | none => Except.error ⟨500, "Error generating item-based recommendations"⟩
      | some candsE =>
        if qEmb.length = 0 ∨ candsE.length = 0 ∨
            candsE.any (fun p => decide (p.2.length ≠ qEmb.length)) then
          Except.error ⟨500, "Error generating item-based recommendations"⟩
        else
          let recIds := computeRecIds qEmb candsE (seenIds interactions userId)
          Except.ok (findIn store recIds, cachePutIds cache (itemKey target) recIds)

/-- routers/recommendations.py `get_item_recommendations`: a populated item
cache key resolves the cached ids against the store and returns at once;
otherwise the uncached path runs. -/
def get_item_recommendations (store : List Movie)
    (interactions : List Interaction) (cache : Cache)
    (userId target : String) (shuffle : List Movie) :
    Except HTTPError (List MovieResponse × Cache) :=
  match cachedIds cache (itemKey target) with
  | some ids => Except.ok (findIn store ids, cache)
  | none => itemUncached store interactions cache userId target shuffle

/-- routers/recommendations.py `get_recommendations` (user-based flow):
cache hit resolves the cached ids against the store; on a miss the first 10
movies are returned (`find({}).limit(10)`), a 404 is raised when there are
none, and the returned ids are cached under the user key. -/
def get_recommendations (store : List Movie) (cache : Cache)
    (userId : String) : Except HTTPError (List MovieResponse × Cache) :=
  match cachedIds cache (userKey userId) with
  | some ids => Except.ok (findIn store ids, cache)
  | none =>
    let top := store.take 10
    if top.isEmpty then Except.error ⟨404, "No movies found."⟩
    else
      Except.ok (top.map stripEmbedding,
        cachePutIds cache (userKey userId) (top.map (fun m => m.movieId_ml)))

/-! ### Serialization lemmas: Python split/join of comma-joined id lists -/

theorem splitCommaChars_no_comma (w : List Char) (hw : ',' ∉ w) :
    splitCommaChars w = [w] := by
  induction w with
  | nil => rfl
  | cons c cs ih =>
    have hc : ¬ c = ',' := fun h => hw (by simp [h])
    have ihe : splitCommaChars cs = [cs] :=
      ih (fun h => hw (List.mem_cons_of_mem _ h))
    simp [splitCommaChars, hc, ihe]

theorem splitCommaChars_append (w rest : List Char) (hw : ',' ∉ w) :
    splitCommaChars (w ++ ',' :: rest) = w :: splitCommaChars rest := by
  induction w with
  | nil => simp [splitCommaChars]
  | cons c cs ih =>
    have hc : ¬ c = ',' := fun h => hw (by simp [h])
    have ihe := ih (fun h => hw (List.mem_cons_of_mem _ h))
    simp [splitCommaChars, hc, ihe]

theorem splitCommaChars_joinCommaChars (ws : List (List Char)) (hne : ws ≠ [])
    (hc : ∀ w ∈ ws, ',' ∉ w) :
    splitCommaChars (joinCommaChars ws) = ws := by
  induction ws with
  | nil => exact absurd rfl hne
  | cons w ws2 ih =>
    cases ws2 with
    | nil => exact splitCommaChars_no_comma w (hc w (List.mem_cons_self _ _))
    | cons w2 ws3 =>
      have h1 : ',' ∉ w := hc w (List.mem_cons_self _ _)
      have h2 : ∀ u ∈ w2 :: ws3, ',' ∉ u := fun u hu =>
        hc u (List.mem_cons_of_mem _ hu)
      rw [show joinCommaChars (w :: w2 :: ws3)
            = w ++ ',' :: joinCommaChars (w2 :: ws3) from rfl]
      rw [splitCommaChars_append _ _ h1]
      rw [ih (by simp) h2]

theorem joinCommaChars_ne_nil (ws : List (List Char)) (hne : ws ≠ [])
    (hw : ∀ w ∈ ws, w ≠ []) : joinCommaChars ws ≠ [] := by
  cases ws with
  | nil => exact absurd rfl hne
  | cons w ws2 =>
    cases ws2 with
    | nil => exact hw w (List.mem_cons_self _ _)
    | cons w2 ws3 => simp [joinCommaChars]

theorem pyJoinComma_ne_empty (ids : List String) (hne : ids ≠ [])
    (hw : ∀ s ∈ ids, s ≠ "") : pyJoinComma ids ≠ "" := by
  intro h
  have hd : joinCommaChars (ids.map String.data) = [] := congrArg String.data h
  refine joinCommaChars_ne_nil _ ?_ ?_ hd
  · intro hm
    exact hne (by simpa using hm)
  · intro w hwm
    obtain ⟨s, hs, rfl⟩ := List.mem_map.mp hwm
    intro hnil
    exact hw s hs (String.ext hnil)

theorem pySplit_pyJoin (ids : List String) (hne : ids ≠ [])
    (hc : ∀ s ∈ ids, ',' ∉ s.data) :
    pySplitComma (pyJoinComma ids) = ids := by
  unfold pySplitComma pyJoinComma
  rw [show (String.mk (joinCommaChars (ids.map String.data))).data
        = joinCommaChars (ids.map String.data) from rfl]
  rw [splitCommaChars_joinCommaChars _ (by simpa using hne) ?side]
  case side =>
    intro w hwm
    obtain ⟨s, hs, rfl⟩ := List.mem_map.mp hwm
    exact hc s hs
  rw [List.map_map]
  exact List.map_id ids

theorem redisGet_redisSet (c : Cache) (k v : String) :
    redisGet (redisSet c k v) k = some v := by
  unfold redisGet redisSet
  rw [List.find?_cons_of_pos _ (by simp)]
  rfl

/-- C7 counterexample: caching the empty id list stores the empty string,
and on the next read the Python truthiness test treats the stored empty
string as a miss, so the round trip yields a miss, not the empty list. -/
theorem cache_roundtrip_empty_list_misses :
    cachedIds (cachePutIds [] (userKey "u1") []) (userKey "u1") = none ∧
    cachedIds (cachePutIds [] (userKey "u1") []) (userKey "u1") ≠
      some ([] : List String) := by
  exact ⟨by decide, by decide⟩

/-- C7 (amended): for every cache state, key, and nonempty list of ids each
of which is nonempty and comma-free, the cache put followed immediately by
the cache get returns exactly the same ordered id list, not a miss; the
empty id list instead round-trips to a miss. -/
theorem cache_put_get_roundtrip (c : Cache) (k : String) (ids : List String)
    (hne : ids ≠ []) (hok : ∀ s ∈ ids, s ≠ "" ∧ ',' ∉ s.data) :
    cachedIds (cachePutIds c k ids) k = some ids := by
  unfold cachedIds cachePutIds
  rw [redisGet_redisSet]
  show (if pyJoinComma ids = "" then none else some (pySplitComma (pyJoinComma ids)))
    = some ids
  rw [if_neg (pyJoinComma_ne_empty ids hne (fun s hs => (hok s hs).1))]
  rw [pySplit_pyJoin ids hne (fun s hs => (hok s hs).2)]

/-- Witness for the amended C7: a concrete two-id round trip. -/
theorem cache_put_get_roundtrip_witness :
    (["tt2", "tt3"] : List String) ≠ [] ∧
    (∀ s ∈ (["tt2", "tt3"] : List String), s ≠ "" ∧ ',' ∉ s.data) ∧
    cachedIds (cachePutIds [] (itemKey "tt1") ["tt2", "tt3"]) (itemKey "tt1") =
      some ["tt2", "tt3"] :=
  ⟨by decide, by decide,
    cache_put_get_roundtrip [] (itemKey "tt1") ["tt2", "tt3"] (by decide) (by decide)⟩

/-! ### Similarity lemmas: the exact comparison agrees with the real score -/

theorem dotQ_self_nonneg (v : List ℚ) : 0 ≤ dotQ v v := by
  induction v with
  | nil => simp [dotQ]
  | cons a as ih =>
    have he : dotQ (a :: as) (a :: as) = a * a + dotQ as as := rfl
    rw [he]
    have ha : 0 ≤ a * a := mul_self_nonneg a
    linarith

theorem sumSq_nonneg (v : List ℚ) : 0 ≤ sumSq v :=
  dotQ_self_nonneg v

theorem safeSumSq_pos (v : List ℚ) : 0 < safeSumSq v := by
  unfold safeSumSq
  split_ifs with h
  · norm_num
  · exact lt_of_le_of_ne (sumSq_nonneg v) (Ne.symm h)

theorem sumSq_eq_zero_mem {v : List ℚ} (h : sumSq v = 0) : ∀ x ∈ v, x = 0 := by
  induction v with
  | nil => intro x hx; cases hx
  | cons a as ih =>
    have he : sumSq (a :: as) = a * a + sumSq as := rfl
    rw [he] at h
    have h1 : a * a = 0 ∧ sumSq as = 0 :=
      (add_eq_zero_iff_of_nonneg (mul_self_nonneg a) (sumSq_nonneg as)).mp h
    intro x hx
    rcases List.mem_cons.mp hx with hx1 | hx2
    · rw [hx1]
      exact mul_self_eq_zero.mp h1.1
    · exact ih h1.2 x hx2

theorem dotQ_zero_of_right_zero :
    ∀ (q c : List ℚ), (∀ x ∈ c, x = 0) → dotQ q c = 0
  | [], _, _ => by simp [dotQ]
  | _ :: _, [], _ => by simp [dotQ]
  | a :: as, b :: bs, h => by
    have hb : b = 0 := h b (List.mem_cons_self _ _)
    have ht := dotQ_zero_of_right_zero as bs
      (fun x hx => h x (List.mem_cons_of_mem _ hx))
    show a * b + dotQ as bs = 0
    rw [hb, ht, mul_zero, add_zero]

theorem mul_sqrt_le_mul_sqrt_iff {a b x y : ℝ} (ha : 0 ≤ a) (hb : 0 ≤ b)
    (hx : 0 ≤ x) (hy : 0 ≤ y) :
    a * Real.sqrt x ≤ b * Real.sqrt y ↔ a * a * x ≤ b * b * y := by
  have ex : a * Real.sqrt x * (a * Real.sqrt x) = a * a * x := by
    rw [show a * Real.sqrt x * (a * Real.sqrt x)
          = a * a * (Real.sqrt x * Real.sqrt x) from by ring,
        Real.mul_self_sqrt hx]
  have ey : b * Real.sqrt y * (b * Real.sqrt y) = b * b * y := by
    rw [show b * Real.sqrt y * (b * Real.sqrt y)
          = b * b * (Real.sqrt y * Real.sqrt y) from by ring,
        Real.mul_self_sqrt hy]
  rw [mul_self_le_mul_self_iff (mul_nonneg ha (Real.sqrt_nonneg x))
      (mul_nonneg hb (Real.sqrt_nonneg y)), ex, ey]

theorem scoreLE_le_iff (d1 d2 p1 p2 : ℚ) (hp1 : 0 < p1) (hp2 : 0 < p2) :
    scoreLE (d1, p1) (d2, p2) = true ↔
      (d1 : ℝ) / Real.sqrt (p1 : ℝ) ≤ (d2 : ℝ) / Real.sqrt (p2 : ℝ) := by
  have hp1r : (0 : ℝ) < (p1 : ℝ) := by exact_mod_cast hp1
  have hp2r : (0 : ℝ) < (p2 : ℝ) := by exact_mod_cast hp2
  have hs1 : 0 < Real.sqrt (p1 : ℝ) := Real.sqrt_pos.mpr hp1r
  have hs2 : 0 < Real.sqrt (p2 : ℝ) := Real.sqrt_pos.mpr hp2r
  rw [div_le_div_iff₀ hs1 hs2]
  unfold scoreLE
  by_cases h1 : d1 < 0 <;> by_cases h2 : d2 < 0
  · rw [if_pos h1, if_pos h2, decide_eq_true_eq]
    have h1r : (d1 : ℝ) < 0 := by exact_mod_cast h1
    have h2r : (d2 : ℝ) < 0 := by exact_mod_cast h2
    have step1 : ((d1 : ℝ) * Real.sqrt (p2 : ℝ) ≤ (d2 : ℝ) * Real.sqrt (p1 : ℝ))
        ↔ ((-(d2 : ℝ)) * Real.sqrt (p1 : ℝ) ≤ (-(d1 : ℝ)) * Real.sqrt (p2 : ℝ)) :=
      ⟨fun h => by linarith, fun h => by linarith⟩
    rw [step1,
        mul_sqrt_le_mul_sqrt_iff (by linarith) (by linarith) hp1r.le hp2r.le,
        neg_mul_neg, neg_mul_neg]
    constructor
    · intro h
      exact_mod_cast h
    · intro h
      exact_mod_cast h
  · rw [if_pos h1, if_neg h2]
    have h1r : (d1 : ℝ) < 0 := by exact_mod_cast h1
    have h2r : (0 : ℝ) ≤ (d2 : ℝ) := by exact_mod_cast not_lt.mp h2
    constructor
    · intro _
      have l1 : (d1 : ℝ) * Real.sqrt (p2 : ℝ) ≤ 0 :=
        (mul_neg_of_neg_of_pos h1r hs2).le
      have l2 : (0 : ℝ) ≤ (d2 : ℝ) * Real.sqrt (p1 : ℝ) :=
        mul_nonneg h2r hs1.le
      linarith
    · intro _
      rfl
  · rw [if_neg h1, if_pos h2]
    have h1r : (0 : ℝ) ≤ (d1 : ℝ) := by exact_mod_cast not_lt.mp h1
    have h2r : (d2 : ℝ) < 0 := by exact_mod_cast h2
    constructor
    · intro hfalse
      exact absurd hfalse (by simp)
    · intro hr
      exfalso
      have l1 : (d2 : ℝ) * Real.sqrt (p1 : ℝ) < 0 :=
        mul_neg_of_neg_of_pos h2r hs1
      have l2 : (0 : ℝ) ≤ (d1 : ℝ) * Real.sqrt (p2 : ℝ) :=
        mul_nonneg h1r hs2.le
      linarith
  · rw [if_neg h1, if_neg h2, decide_eq_true_eq]
    have h1r : (0 : ℝ) ≤ (d1 : ℝ) := by exact_mod_cast not_lt.mp h1
    have h2r : (0 : ℝ) ≤ (d2 : ℝ) := by exact_mod_cast not_lt.mp h2
    rw [mul_sqrt_le_mul_sqrt_iff h1r h2r hp2r.le hp1r.le]
    constructor
    · intro h
      exact_mod_cast h
    · intro h
      exact_mod_cast h

theorem cosineSim_eq_div_sqrt (q c : List ℚ) :
    cosineSim q c
      = ((dotQ q c : ℚ) : ℝ) / Real.sqrt ((safeSumSq q * safeSumSq c : ℚ) : ℝ) := by
  unfold cosineSim
  rw [Rat.cast_mul,
      Real.sqrt_mul (by exact_mod_cast (safeSumSq_pos q).le) _]

theorem scoreLE_iff (q c1 c2 : List ℚ) :
    scoreLE (simKey q c1) (simKey q c2) = true ↔
      cosineSim q c1 ≤ cosineSim q c2 := by
  rw [cosineSim_eq_div_sqrt q c1, cosineSim_eq_div_sqrt q c2]
  exact scoreLE_le_iff (dotQ q c1) (dotQ q c2)
    (safeSumSq q * safeSumSq c1) (safeSumSq q * safeSumSq c2)
    (mul_pos (safeSumSq_pos q) (safeSumSq_pos c1))
    (mul_pos (safeSumSq_pos q) (safeSumSq_pos c2))

theorem rankRel_iff (q : List ℚ) (a b : Movie × List ℚ) :
    rankRel q a b ↔ cosineSim q b.2 ≤ cosineSim q a.2 :=
  scoreLE_iff q b.2 a.2

/-- C6: for every query vector and every candidate vector whose magnitude
is zero, the similarity score is 0 and no division by zero occurs:
sklearn's `cosine_similarity` replaces a zero norm by 1 before dividing,
so the denominator is strictly positive and the numerator (a dot product
with the all-zero vector) vanishes. -/
theorem zero_magnitude_candidate_scores_zero (q c : List ℚ)
    (h : sumSq c = 0) :
    cosineSim q c = 0 ∧
    0 < Real.sqrt ((safeSumSq q : ℚ) : ℝ) * Real.sqrt ((safeSumSq c : ℚ) : ℝ) := by
  constructor
  · unfold cosineSim
    rw [dotQ_zero_of_right_zero q c (sumSq_eq_zero_mem h)]
    simp
  · have h1 : (0 : ℝ) < ((safeSumSq q : ℚ) : ℝ) := by
      exact_mod_cast safeSumSq_pos q
    have h2 : (0 : ℝ) < ((safeSumSq c : ℚ) : ℝ) := by
      exact_mod_cast safeSumSq_pos c
    exact mul_pos (Real.sqrt_pos.mpr h1) (Real.sqrt_pos.mpr h2)

/-- Witness for C6 at a concrete all-zero candidate vector. -/
theorem zero_magnitude_candidate_scores_zero_witness :
    sumSq [(0 : ℚ), 0] = 0 ∧
    (cosineSim [(1 : ℚ)] [(0 : ℚ), 0] = 0 ∧
      0 < Real.sqrt ((safeSumSq [(1 : ℚ)] : ℚ) : ℝ) *
        Real.sqrt ((safeSumSq [(0 : ℚ), 0] : ℚ) : ℝ)) :=
  ⟨by norm_num [sumSq, dotQ],
    zero_magnitude_candidate_scores_zero [(1 : ℚ)] [(0 : ℚ), 0]
      (by norm_num [sumSq, dotQ])⟩

/-- C2: the ranking step outputs a permutation of its candidate list that
is sorted in descending order of cosine-similarity score against the query
embedding, and any two candidates with equal scores appear in the same
relative order as in the input list (Python's `sorted` is stable and
`reverse=True` does not disturb stability). -/
theorem ranking_sorted_descending_stable (q : List ℚ)
    (cands : List (Movie × List ℚ)) :
    List.Perm (rankStep q cands) cands ∧
    List.Sorted (fun a b : Movie × List ℚ => cosineSim q b.2 ≤ cosineSim q a.2)
      (rankStep q cands) ∧
    (∀ a b : Movie × List ℚ, List.Sublist [a, b] cands →
      cosineSim q a.2 = cosineSim q b.2 →
      List.Sublist [a, b] (rankStep q cands)) := by
  refine ⟨List.perm_insertionSort _ _, ?_, ?_⟩
  · haveI ht : IsTotal (Movie × List ℚ) (rankRel q) := ⟨fun a b => by
      rw [rankRel_iff, rankRel_iff]
      exact le_total _ _⟩
    haveI htr : IsTrans (Movie × List ℚ) (rankRel q) := ⟨fun a b c hab hbc => by
      rw [rankRel_iff] at hab hbc ⊢
      exact le_trans hbc hab⟩
    exact List.Pairwise.imp (fun hab => (rankRel_iff q _ _).mp hab)
      (List.sorted_insertionSort (rankRel q) cands)
  · intro a b hs he
    exact List.pair_sublist_insertionSort
      ((rankRel_iff q a b).mpr (le_of_eq he.symm)) hs

/-! ### Flow lemmas: inverting a successful uncached item-based run -/

theorem findIn_id_mem {store : List Movie} {ids : List String}
    {r : MovieResponse} (hr : r ∈ findIn store ids) : r.movieId_ml ∈ ids := by
  unfold findIn at hr
  obtain ⟨m, hm, hrm⟩ := List.mem_map.mp hr
  have h3 : m.movieId_ml ∈ ids := of_decide_eq_true (List.mem_filter.mp hm).2
  rw [← hrm]
  exact h3

theorem computeRecIds_not_seen {qEmb : List ℚ}
    {candsE : List (Movie × List ℚ)} {seen : List String} {i : String}
    (hi : i ∈ computeRecIds qEmb candsE seen) : i ∉ seen := by
  unfold computeRecIds at hi
  obtain ⟨p, hp, hpi⟩ := List.mem_map.mp hi
  have hp2 := List.take_subset _ _ hp
  have h3 := (List.mem_filter.mp hp2).2
  rw [← hpi]
  exact of_decide_eq_true h3

theorem computeRecIds_from_cands {qEmb : List ℚ}
    {candsE : List (Movie × List ℚ)} {seen : List String} {i : String}
    (hi : i ∈ computeRecIds qEmb candsE seen) :
    ∃ p, p ∈ candsE ∧ p.1.movieId_ml = i := by
  unfold computeRecIds at hi
  obtain ⟨p, hp, hpi⟩ := List.mem_map.mp hi
  have hp2 := List.take_subset _ _ hp
  have hp3 : p ∈ rankStep qEmb candsE := (List.mem_filter.mp hp2).1
  unfold rankStep at hp3
  exact ⟨p, (List.mem_insertionSort _).mp hp3, hpi⟩

theorem extractEmbeddings_mem {ms : List Movie}
    {l : List (Movie × List ℚ)} (h : extractEmbeddings ms = some l) :
    ∀ p ∈ l, p.1 ∈ ms := by
  induction ms generalizing l with
  | nil =>
    simp only [extractEmbeddings, Option.some.injEq] at h
    intro p hp
    rw [← h] at hp
    cases hp
  | cons m ms2 ih =>
    unfold extractEmbeddings at h
    cases hm : m.embedding with
    | none =>
      simp only [hm] at h
      exact Option.noConfusion h
    | some e =>
      cases hrest : extractEmbeddings ms2 with
      | none =>
        simp only [hm, hrest] at h
        exact Option.noConfusion h
      | some rest =>
        simp only [hm, hrest, Option.some.injEq] at h
        intro p hp
        rw [← h] at hp
        rcases List.mem_cons.mp hp with h1 | h2
        · rw [h1]
          exact List.mem_cons_self _ _
        · exact List.mem_cons_of_mem _ (ih hrest p h2)

theorem itemUncached_ok {store : List Movie} {interactions : List Interaction}
    {cache : Cache} {userId target : String} {shuffle : List Movie}
    {resp : List MovieResponse} {cOut : Cache}
    (h : itemUncached store interactions cache userId target shuffle
      = Except.ok (resp, cOut)) :
    ∃ qEmb candsE,
      extractEmbeddings (sampleCandidates shuffle) = some candsE ∧
      resp = findIn store
        (computeRecIds qEmb candsE (seenIds interactions userId)) := by
  unfold itemUncached at h
  cases hfind : store.find? (fun m => decide (m.movieId_ml = target)) with
  | none =>
    simp only [hfind] at h
    exact absurd h (by simp)
  | some tm =>
    simp only [hfind] at h
    cases hemb : tm.embedding with
    | none =>
      simp only [hemb] at h
      exact absurd h (by simp)
    | some qEmb =>
      simp only [hemb] at h
      cases hex : extractEmbeddings (sampleCandidates shuffle) with
      | none =>
        simp only [hex] at h
        exact absurd h (by simp)
      | some candsE =>
        simp only [hex] at h
        split at h
        · exact absurd h (by simp)
        · simp only [Except.ok.injEq, Prod.mk.injEq] at h
          exact ⟨qEmb, candsE, rfl, h.1.symm⟩

/-! ### Fixtures for the concrete witness and counterexample runs -/

def sMovie1 : Movie := ⟨"tt1", "Movie 1", "Drama", some [1]⟩

def sMovie2 : Movie := ⟨"tt2", "Movie 2", "Action", some [2]⟩

def sMovie3 : Movie := ⟨"tt3", "Movie 3", "Comedy", some [1]⟩

def sNoEmb : Movie := ⟨"tt9", "Movie 9", "Horror", none⟩

def sSeen5 : Interaction := ⟨"u1", "tt5", "rating", 4, 100⟩

/-! ### The claims about the recommendation flows -/

/-- C1 (amended): when the item cache key is populated with an id list, the
response is the movie details for exactly the cached ids that are present
in the store, but in the store's document order (Mongo `$in` does not
reorder by the query list), not necessarily the cached order; no ranking is
performed — the result is the same for every sampling order, interaction
log and embedding content — and the cache is left unchanged. -/
theorem item_cache_hit_resolves (store : List Movie)
    (interactions : List Interaction) (cache : Cache)
    (userId target : String) (shuffle : List Movie) (ids : List String)
    (hhit : cachedIds cache (itemKey target) = some ids) :
    get_item_recommendations store interactions cache userId target shuffle
      = Except.ok (findIn store ids, cache) := by
  unfold get_item_recommendations
  simp only [hhit]

/-- Witness for the amended C1: a concrete pre-populated item key. -/
theorem item_cache_hit_resolves_witness :
    cachedIds [(itemKey "tt7", "tt2")] (itemKey "tt7") = some ["tt2"] ∧
    get_item_recommendations [sMovie2] [] [(itemKey "tt7", "tt2")] "u1" "tt7" []
      = Except.ok (findIn [sMovie2] ["tt2"], [(itemKey "tt7", "tt2")]) :=
  ⟨by decide,
    item_cache_hit_resolves [sMovie2] [] [(itemKey "tt7", "tt2")] "u1" "tt7" []
      ["tt2"] (by decide)⟩

/-- C1 counterexample: with the item cache pre-populated with "tt2,tt3" and
the store holding tt3 before tt2, the code answers the details in store
order (tt3 then tt2), not in the cached order (tt2 then tt3) that the claim
asserts. -/
theorem item_cache_hit_not_cached_order :
    get_item_recommendations [sMovie3, sMovie2] []
        [(itemKey "tt1", "tt2,tt3")] "u1" "tt1" []
      = Except.ok ([stripEmbedding sMovie3, stripEmbedding sMovie2],
          [(itemKey "tt1", "tt2,tt3")]) ∧
    get_item_recommendations [sMovie3, sMovie2] []
        [(itemKey "tt1", "tt2,tt3")] "u1" "tt1" []
      ≠ Except.ok ([stripEmbedding sMovie2, stripEmbedding sMovie3],
          [(itemKey "tt1", "tt2,tt3")]) :=
  ⟨by decide, by decide⟩

/-- C3 (amended): the candidate sampling step returns a random subset of at
most 500 movies drawn from all movies other than the target — presence of
an embedding is NOT required, since the `$match` stage filters only on the
movie id (a sampled movie with no embedding then makes the extraction step
fault) — and when at most 500 such movies exist the sample is a permutation
of all of them, with no fault raised by the sampling itself. -/
theorem sample_capped_excludes_target (store : List Movie) (target : String)
    (shuffle : List Movie)
    (hperm : List.Perm shuffle (matchExcludeTarget store target)) :
    (sampleCandidates shuffle).length ≤ 500 ∧
    (∀ m ∈ sampleCandidates shuffle, m.movieId_ml ≠ target) ∧
    ((matchExcludeTarget store target).length ≤ 500 →
      List.Perm (sampleCandidates shuffle)
        (matchExcludeTarget store target)) := by
  refine ⟨?_, ?_, ?_⟩
  · unfold sampleCandidates
    rw [List.length_take]
    exact min_le_left _ _
  · intro m hm
    have h2 : m ∈ shuffle := List.take_subset _ _ hm
    exact of_decide_eq_true (List.mem_filter.mp (hperm.subset h2)).2
  · intro hlen
    have he : sampleCandidates shuffle = shuffle := by
      unfold sampleCandidates
      exact List.take_of_length_le (by rw [hperm.length_eq]; exact hlen)
    rw [he]
    exact hperm

/-- Witness for the amended C3: a one-candidate sample. -/
theorem sample_capped_excludes_target_witness :
    List.Perm [sMovie2] (matchExcludeTarget [sMovie1, sMovie2] "tt1") ∧
    ((sampleCandidates [sMovie2]).length ≤ 500 ∧
      (∀ m ∈ sampleCandidates [sMovie2], m.movieId_ml ≠ "tt1") ∧
      ((matchExcludeTarget [sMovie1, sMovie2] "tt1").length ≤ 500 →
        List.Perm (sampleCandidates [sMovie2])
          (matchExcludeTarget [sMovie1, sMovie2] "tt1"))) :=
  ⟨List.Perm.refl _,
    sample_capped_excludes_target [sMovie1, sMovie2] "tt1" [sMovie2]
      (List.Perm.refl _)⟩

/-- C3 counterexample: the `$match` stage of the candidate aggregation
filters only on the movie id, so a movie whose embedding is absent is
sampled, refuting "every returned movie has an embedding present". -/
theorem sample_contains_movie_without_embedding :
    List.Perm [sNoEmb] (matchExcludeTarget [sMovie1, sNoEmb] "tt1") ∧
    sNoEmb ∈ sampleCandidates [sNoEmb] ∧
    sNoEmb.embedding = none :=
  ⟨List.Perm.refl _, by decide, rfl⟩

/-- C4: on the uncached path, no movie id appearing anywhere in the
requesting user's full interaction history (no time bound) appears in the
resulting recommendation list: the seen filter drops every ranked candidate
whose id the user has interacted with before the top-10 cut. -/
theorem uncached_item_excludes_seen (store : List Movie)
    (interactions : List Interaction) (cache : Cache)
    (userId target : String) (shuffle : List Movie)
    (resp : List MovieResponse) (cOut : Cache) (r : MovieResponse)
    (hmiss : cachedIds cache (itemKey target) = none)
    (hrun : get_item_recommendations store interactions cache userId target
      shuffle = Except.ok (resp, cOut))
    (hr : r ∈ resp) :
    r.movieId_ml ∉ seenIds interactions userId := by
  unfold get_item_recommendations at hrun
  simp only [hmiss] at hrun
  obtain ⟨qEmb, candsE, hex, hresp⟩ := itemUncached_ok hrun
  rw [hresp] at hr
  exact computeRecIds_not_seen (findIn_id_mem hr)

/-- Witness for C4: a concrete uncached run in which the user's history
holds tt5, and the recommended movie tt2 is indeed outside the history. -/
theorem uncached_item_excludes_seen_witness :
    cachedIds [] (itemKey "tt1") = none ∧
    get_item_recommendations [sMovie1, sMovie2] [sSeen5] [] "u1" "tt1"
        [sMovie2]
      = Except.ok ([stripEmbedding sMovie2], [(itemKey "tt1", "tt2")]) ∧
    stripEmbedding sMovie2 ∈ [stripEmbedding sMovie2] ∧
    (stripEmbedding sMovie2).movieId_ml ∉ seenIds [sSeen5] "u1" :=
  ⟨by decide, by decide, by decide,
    uncached_item_excludes_seen [sMovie1, sMovie2] [sSeen5] [] "u1" "tt1"
      [sMovie2] [stripEmbedding sMovie2] [(itemKey "tt1", "tt2")]
      (stripEmbedding sMovie2) (by decide) (by decide) (by decide)⟩

/-- C5: on the uncached path, the target movie's own id is never a member
of the recommendation output: the `$match` stage excludes it from the
candidate set, and the ranked, filtered, truncated result draws only from
that set. -/
theorem uncached_item_excludes_target (store : List Movie)
    (interactions : List Interaction) (cache : Cache)
    (userId target : String) (shuffle : List Movie)
    (resp : List MovieResponse) (cOut : Cache) (r : MovieResponse)
    (hmiss : cachedIds cache (itemKey target) = none)
    (hperm : List.Perm shuffle (matchExcludeTarget store target))
    (hrun : get_item_recommendations store interactions cache userId target
      shuffle = Except.ok (resp, cOut))
    (hr : r ∈ resp) :
    r.movieId_ml ≠ target := by
  unfold get_item_recommendations at hrun
  simp only [hmiss] at hrun
  obtain ⟨qEmb, candsE, hex, hresp⟩ := itemUncached_ok hrun
  rw [hresp] at hr
  obtain ⟨p, hp, hpi⟩ := computeRecIds_from_cands (findIn_id_mem hr)
  have h1 : p.1 ∈ sampleCandidates shuffle := extractEmbeddings_mem hex p hp
  have h2 : p.1 ∈ shuffle := List.take_subset _ _ h1
  have h4 := (List.mem_filter.mp (hperm.subset h2)).2
  rw [← hpi]
  exact of_decide_eq_true h4

/-- Witness for C5: the concrete uncached run of the C4 witness; the
returned movie id tt2 differs from the target id tt1. -/
theorem uncached_item_excludes_target_witness :
    cachedIds [] (itemKey "tt1") = none ∧
    List.Perm [sMovie2] (matchExcludeTarget [sMovie1, sMovie2] "tt1") ∧
    get_item_recommendations [sMovie1, sMovie2] [sSeen5] [] "u1" "tt1"
        [sMovie2]
      = Except.ok ([stripEmbedding sMovie2], [(itemKey "tt1", "tt2")]) ∧
    stripEmbedding sMovie2 ∈ [stripEmbedding sMovie2] ∧
    (stripEmbedding sMovie2).movieId_ml ≠ "tt1" :=
  ⟨by decide, List.Perm.refl _, by decide, by decide,
    uncached_item_excludes_target [sMovie1, sMovie2] [sSeen5] [] "u1" "tt1"
      [sMovie2] [stripEmbedding sMovie2] [(itemKey "tt1", "tt2")]
      (stripEmbedding sMovie2) (by decide) (List.Perm.refl _) (by decide)
      (by decide)⟩

/-- C10: on a cache hit in either recommendation flow, cached ids that no
longer match any movie document are silently omitted: the response is
exactly the store's movies whose ids occur in the cached list (in store
order), no error is raised, and the cache is unchanged — so the response
may hold fewer movies than the cached list has ids. -/
theorem cache_hit_filters_to_existing (store : List Movie)
    (interactions : List Interaction) (cache : Cache)
    (userId target : String) (shuffle : List Movie) (uIds iIds : List String)
    (hu : cachedIds cache (userKey userId) = some uIds)
    (hi : cachedIds cache (itemKey target) = some iIds) :
    get_recommendations store cache userId
      = Except.ok ((store.filter
          (fun m => decide (m.movieId_ml ∈ uIds))).map stripEmbedding,
          cache) ∧
    get_item_recommendations store interactions cache userId target shuffle
      = Except.ok ((store.filter
          (fun m => decide (m.movieId_ml ∈ iIds))).map stripEmbedding,
          cache) := by
  constructor
  · unfold get_recommendations
    simp only [hu]
    rfl
  · unfold get_item_recommendations
    simp only [hi]
    rfl

/-- Witness for C10: the user key caches "tt2,ttX" and the item key caches
"tt3,ttY"; ttX and ttY match no document and are silently dropped, so both
responses hold one movie where the cached lists hold two ids. -/
theorem cache_hit_filters_to_existing_witness :
    cachedIds [(userKey "u1", "tt2,ttX"), (itemKey "tt1", "tt3,ttY")]
        (userKey "u1") = some ["tt2", "ttX"] ∧
    cachedIds [(userKey "u1", "tt2,ttX"), (itemKey "tt1", "tt3,ttY")]
        (itemKey "tt1") = some ["tt3", "ttY"] ∧
    (get_recommendations [sMovie2, sMovie3]
        [(userKey "u1", "tt2,ttX"), (itemKey "tt1", "tt3,ttY")] "u1"
      = Except.ok (([sMovie2, sMovie3].filter
          (fun m => decide (m.movieId_ml ∈ ["tt2", "ttX"]))).map stripEmbedding,
          [(userKey "u1", "tt2,ttX"), (itemKey "tt1", "tt3,ttY")]) ∧
    get_item_recommendations [sMovie2, sMovie3]
        [] [(userKey "u1", "tt2,ttX"), (itemKey "tt1", "tt3,ttY")] "u1" "tt1" []
      = Except.ok (([sMovie2, sMovie3].filter
          (fun m => decide (m.movieId_ml ∈ ["tt3", "ttY"]))).map stripEmbedding,
          [(userKey "u1", "tt2,ttX"), (itemKey "tt1", "tt3,ttY")])) :=
  ⟨by decide, by decide,
    cache_hit_filters_to_existing [sMovie2, sMovie3] []
      [(userKey "u1", "tt2,ttX"), (itemKey "tt1", "tt3,ttY")] "u1" "tt1" []
      ["tt2", "ttX"] ["tt3", "ttY"] (by decide) (by decide)⟩

/-- C8 (code bug in routers/movies.py `get_movie`): when no movie matches
the requested id, the try-block raises `HTTPException(404, "Movie not
found")`, but the handler's blanket `except Exception` clause (there is no
preceding `except HTTPException` re-raise, and `HTTPException` subclasses
`Exception`) catches it and replaces it with a 500, so the client receives
HTTP 500 instead of the specified 404. -/
theorem movie_not_found_maps_to_500 :
    get_movie_body ([] : List Movie) "tt1" =
      Except.error ⟨404, "Movie not found"⟩ ∧
    get_movie ([] : List Movie) "tt1" =
      Except.error ⟨500, "Error retrieving movie"⟩ :=
  ⟨rfl, rfl⟩

/-- C9: for every request body, token subject and server time, the stored
and returned interaction's `userId` is the authenticated token's `sub`
claim and its `timestamp` is the server-set time — the body schema carries
only `movieId_ml`, `type` and `value`, so no body content can place the
interaction under another user's id. -/
theorem interaction_identity_server_set (istore : List Interaction)
    (body : InteractionCreate) (tokenSub : String) (now : Nat) :
    (create_interaction istore body tokenSub now).2.userId = tokenSub ∧
    (create_interaction istore body tokenSub now).2.timestamp = now ∧
    (create_interaction istore body tokenSub now).1 =
      istore ++ [(create_interaction istore body tokenSub now).2] :=
  ⟨rfl, rfl, rfl⟩

end MovieRec
